import Mathlib

/-!
Verification development for the Techiee chat bot's session/concurrency
coordinator.  The definitions below are shallow embeddings of the Python
modules `utils/gemini.py`, `utils/retry.py`, `utils/typing.py` and
`cogs/reactions.py`; the theorems settle the specification's claims about
them.
-/

set_option maxRecDepth 4000

namespace Techiee

/-! ### String containment (Python's `needle in haystack`) -/

/-- Does `hay` start with `needle`?  Helper for substring containment. -/
def startsWithL : (needle hay : List Char) → Bool
  | [], _ => true
  | _ :: _, [] => false
  | a :: as, b :: bs => a = b && startsWithL as bs

/-- Does `hay` contain `needle` as a contiguous substring?  Models the
Python expression `needle in hay` on strings. -/
def hasSub (needle : List Char) : (hay : List Char) → Bool
  | [] => needle.isEmpty
  | c :: rest => startsWithL needle (c :: rest) || hasSub needle rest

/-- Python `sub in s` for `String`s. -/
def strContains (s sub : String) : Bool :=
  hasSub sub.toList s.toList

theorem startsWithL_append (needle suf : List Char) :
    startsWithL needle (needle ++ suf) = true := by
  induction needle with
  | nil => rfl
  | cons a as ih => simp [startsWithL, ih]

theorem hasSub_self_append (needle suf : List Char) :
    hasSub needle (needle ++ suf) = true := by
  cases needle with
  | nil => cases suf <;> rfl
  | cons a as =>
      have h : startsWithL (a :: as) ((a :: as) ++ suf) = true :=
        startsWithL_append _ _
      simp only [List.cons_append, hasSub]
      rw [Bool.or_eq_true]
      exact Or.inl h

theorem hasSub_append (pre needle suf : List Char) :
    hasSub needle (pre ++ (needle ++ suf)) = true := by
  induction pre with
  | nil => exact hasSub_self_append needle suf
  | cons c cs ih =>
      simp only [List.cons_append, hasSub]
      rw [Bool.or_eq_true]
      exact Or.inr ih

/-! ### Data model

`Content` mirrors `google.genai.types.Content` as used by the bot: a role
string (`"user"` or `"model"`) and an ordered list of parts.  Only the
textual payload of a part is ever inspected by the coordinator, so `GPart`
records just that. -/

structure GPart where
  text : String
  deriving DecidableEq, Repr

structure Content where
  role : String
  parts : List GPart
  deriving DecidableEq, Repr

/-- `create_user_content` from `utils/gemini.py`. -/
def create_user_content (parts : List GPart) : Content :=
  { role := "user", parts := parts }

/-- `create_model_content` from `utils/gemini.py`: `None` text gives `None`,
otherwise a model-role `Content` wrapping the text. -/
def create_model_content (text : Option String) : Option Content :=
  match text with
  | none => none
  | some t => some { role := "model", parts := [{ text := t }] }

/-! ### Scope keys (`get_history_key` / `get_settings_key`) -/

inductive ScopeTag where
  | thread
  | dm
  | tracked
  | mention
  deriving DecidableEq, Repr

/-- The tuple keys `("thread", id)`, `("dm", id)`, `("tracked", id)`,
`("mention", id)` used for `message_history`, `context_settings` and
`pending_context`. -/
abbrev ScopeKey := ScopeTag × Nat

/-- The fields of a Discord message (plus the module-level tracking lists)
that the key resolvers inspect. -/
structure MsgCtx where
  channelId : Nat
  authorId : Nat
  isDM : Bool
  trackedThreads : List Nat
  trackedChannels : List Nat
  deriving DecidableEq, Repr

/-- `get_history_key` from `utils/gemini.py`. -/
def get_history_key (m : MsgCtx) : ScopeKey :=
  if m.channelId ∈ m.trackedThreads then (ScopeTag.thread, m.channelId)
  else if m.isDM then (ScopeTag.dm, m.authorId)
  else if m.channelId ∈ m.trackedChannels then (ScopeTag.tracked, m.authorId)
  else (ScopeTag.mention, m.authorId)

/-- `get_settings_key` from `utils/gemini.py` (same decision tree as
`get_history_key`). -/
def get_settings_key (m : MsgCtx) : ScopeKey :=
  if m.channelId ∈ m.trackedThreads then (ScopeTag.thread, m.channelId)
  else if m.isDM then (ScopeTag.dm, m.authorId)
  else if m.channelId ∈ m.trackedChannels then (ScopeTag.tracked, m.authorId)
  else (ScopeTag.mention, m.authorId)

/-- Modelled from the spec: `resolveScope` follows the fixed priority
Thread > DirectMessage > TrackedChannel > Mention (spec section 4.1),
given the three booleans of its stated contract.  Used only to compare the
source resolvers against the spec's wording. -/
def resolveScope_spec (isThread isDM isTracked : Bool)
    (channelId userId : Nat) : ScopeKey :=
  if isThread then (ScopeTag.thread, channelId)
  else if isDM then (ScopeTag.dm, userId)
  else if isTracked then (ScopeTag.tracked, userId)
  else (ScopeTag.mention, userId)

/-! ### Message history store (`message_history` + `update_message_history`) -/

/-- `max_history` from `config.py`. -/
def max_history : Nat := 30

/-- The `message_history` dict: absent keys are `none`. -/
abbrev HStore := ScopeKey → Option (List Content)

def emptyHStore : HStore := fun _ => none

/-- `get_message_history_contents`: `message_history.get(key, [])`. -/
def get_message_history_contents (s : HStore) (k : ScopeKey) : List Content :=
  (s k).getD []

/-- The body of `update_message_history` from `utils/gemini.py`, acting at
an already-resolved history key.  `None` content returns immediately; an
existing history is appended to and, when its length exceeds
`max_history`, `pop(0)` drops its head; an absent history is created as a
singleton. -/
def update_message_history_at (s : HStore) (k : ScopeKey)
    (content : Option Content) : HStore :=
  match content with
  | none => s
  | some c =>
    match s k with
    | some h =>
        let h' := h ++ [c]
        let h'' := if max_history < h'.length then h'.tail else h'
        fun k' => if k' = k then some h'' else s k'
    | none => fun k' => if k' = k then some [c] else s k'

/-- `update_message_history(message, content)`: resolves the history key
from the message, then updates at that key. -/
def update_message_history (s : HStore) (m : MsgCtx)
    (content : Option Content) : HStore :=
  update_message_history_at s (get_history_key m) content

/-- A whole sequence of `update_message_history` calls at explicit keys. -/
def applyHistoryUpdates (s : HStore)
    (updates : List (ScopeKey × Option Content)) : HStore :=
  updates.foldl (fun st u => update_message_history_at st u.1 u.2) s

/-! ### 503 classifier (`utils/retry.py`) -/

/-- `is_503_error` from `utils/retry.py`: falsy input (None or the empty
string) is not a 503; otherwise both `"503"` and `"UNAVAILABLE"` must
occur as substrings. -/
def is_503_error (response_text : Option String) : Bool :=
  match response_text with
  | none => false
  | some s =>
      if s = "" then false
      else strContains s "503" && strContains s "UNAVAILABLE"

/-! ### Pending context (`pending_context` in `utils/gemini.py`) -/

/-- One `pending_context` entry: `{"contents": ..., "remaining_uses": ...,
"listen_channel_id": ...}`.  `remaining_uses` is a Python int. -/
structure PendingCtx where
  contents : List Content
  remaining_uses : Int
  listen_channel_id : Option Nat
  deriving DecidableEq, Repr

/-- The `pending_context` dict: absent keys are `none`. -/
abbrev PStore := ScopeKey → Option PendingCtx

def emptyPStore : PStore := fun _ => none

/-- `set_pending_context` from `utils/gemini.py`: overwrites the entry for
the key. -/
def set_pending_context (s : PStore) (k : ScopeKey) (contents : List Content)
    (remaining_uses : Int) (listen_channel_id : Option Nat) : PStore :=
  fun k' =>
    if k' = k then
      some { contents := contents, remaining_uses := remaining_uses,
             listen_channel_id := listen_channel_id }
    else s k'

/-- `get_pending_context`: read-only fetch of the contents. -/
def get_pending_context (s : PStore) (k : ScopeKey) : List Content :=
  match s k with
  | some ctx => ctx.contents
  | none => []

/-- `decrement_pending_context` from `utils/gemini.py`: decrements
`remaining_uses`; if the result is `<= 0` the entry is deleted and `0`
returned; a missing entry returns `0` and leaves the store untouched.
Returns (remaining uses after, updated store). -/
def decrement_pending_context (s : PStore) (k : ScopeKey) : Int × PStore :=
  match s k with
  | some ctx =>
      let r := ctx.remaining_uses - 1
      if r ≤ 0 then
        (0, fun k' => if k' = k then none else s k')
      else
        (r, fun k' => if k' = k then some { ctx with remaining_uses := r }
                      else s k')
  | none => (0, s)

/-- `decrement_pending_context` applied `n` times (store component only). -/
def decrementN (s : PStore) (k : ScopeKey) : Nat → PStore
  | 0 => s
  | n + 1 => decrementN (decrement_pending_context s k).2 k n

/-! ### API key rotation (`APIKeyManager` + `execute_with_retry`) -/

/-- `APIKeyManager`: only the pool size and the rotation cursor matter to
the coordinator (`self.api_keys` is consulted only through `len` and
indexing by `current_index`). -/
structure KeyManager where
  numKeys : Nat
  currentIndex : Nat
  deriving DecidableEq, Repr

/-- `APIKeyManager.rotate_key`: with `<= 1` keys returns `False` and does
not move; otherwise advances `current_index` cyclically and returns
`True`. -/
def rotate_key (m : KeyManager) : Bool × KeyManager :=
  if m.numKeys ≤ 1 then (false, m)
  else (true, { m with currentIndex := (m.currentIndex + 1) % m.numKeys })

/-- `is_rate_limit_error` from `utils/gemini.py`. -/
def is_rate_limit_error (e : String) : Bool :=
  strContains e "429" &&
    (strContains e "RESOURCE_EXHAUSTED" || strContains e.toLower "rate" ||
      strContains e.toLower "quota")

/-- The terminal message raised when every key has been rate limited. -/
def exhaustedMessage (totalKeys : Nat) (lastError : String) : String :=
  "All " ++ toString totalKeys ++
    " API key(s) have been rate limited. Please wait and try again later. Last error: "
    ++ lastError

/-- Possible outcomes of `execute_with_retry`. -/
inductive RetryOutcome (α : Type) where
  | ok (a : α)
  /-- the `raise Exception(f"All {total_keys} API key(s) ...")` branch -/
  | exhausted (totalKeys : Nat) (lastError : String)
  /-- a non-429 error re-raised immediately -/
  | fatal (e : String)
  /-- the fall-through when the pool is empty (Python returns `None`) -/
  | noResult
  deriving DecidableEq, Repr

/-- Result of a run of `execute_with_retry`: the outcome, the key indices
attempted in order, and the key manager state afterwards. -/
structure RetryRun (α : Type) where
  outcome : RetryOutcome α
  attempts : List Nat
  finalMgr : KeyManager
  deriving Repr

/-- The `while keys_tried < total_keys` loop of `execute_with_retry`.
`remaining = total_keys - keys_tried` decreases by one per rate-limited
attempt.  An attempt invokes `call` on the current key index; success
returns, a 429 either rotates and retries (when keys remain and rotation
succeeds) or raises the pool-exhausted error, and any other error is
re-raised at once. -/
def retryAux {α : Type} (call : Nat → Except String α) (total : Nat) :
    KeyManager → Nat → RetryRun α
  | mgr, 0 => ⟨RetryOutcome.noResult, [], mgr⟩
  | mgr, k + 1 =>
    match call mgr.currentIndex with
    | Except.ok a => ⟨RetryOutcome.ok a, [mgr.currentIndex], mgr⟩
    | Except.error e =>
      if is_rate_limit_error e then
        if 0 < k then
          match rotate_key mgr with
          | (true, mgr') =>
              let r := retryAux call total mgr' k
              ⟨r.outcome, mgr.currentIndex :: r.attempts, r.finalMgr⟩
          | (false, _) =>
              ⟨RetryOutcome.exhausted total e, [mgr.currentIndex], mgr⟩
        else
          ⟨RetryOutcome.exhausted total e, [mgr.currentIndex], mgr⟩
      else
        ⟨RetryOutcome.fatal e, [mgr.currentIndex], mgr⟩

/-- `execute_with_retry(func)`: run the loop with `keys_tried = 0`, i.e.
`remaining = total_keys`. -/
def execute_with_retry {α : Type} (call : Nat → Except String α)
    (mgr : KeyManager) : RetryRun α :=
  retryAux call mgr.numKeys mgr mgr.numKeys

/-! ### The 503 retry view (`RetryView` in `utils/retry.py`)

The view's interaction with the session store is captured by counters:
`historyUpdates` counts invocations of `update_history_callback` and
`trackedResponses` counts invocations of `response_tracker.track` on a
delivered response.  `hasHistoryCallback` records whether an
`update_history_callback` was supplied, `delivered` whether
`split_and_send_messages_with_tracking` returned a non-empty list. -/

structure RetryState where
  retryCount : Nat
  maxRetries : Nat
  hasHistoryCallback : Bool
  delivered : Bool
  stopped : Bool
  /-- the "Max retries reached" state: button permanently disabled -/
  terminal : Bool
  historyUpdates : Nat
  trackedResponses : Nat
  deriving DecidableEq, Repr

/-- A fresh `RetryView` (`retry_count = 0`, `max_retries = 5`). -/
def mkRetryView (maxRetries : Nat) (hasCb delivered : Bool) : RetryState :=
  { retryCount := 0, maxRetries := maxRetries, hasHistoryCallback := hasCb,
    delivered := delivered, stopped := false, terminal := false,
    historyUpdates := 0, trackedResponses := 0 }

/-- `RetryView.do_retry`, given the response text the retry callback
produced on this attempt.  A still-503 response either reaches the
max-retries terminal state or re-arms the countdown; a non-503 response
deletes the error message, runs the deferred history update (if any),
tracks the delivered response (if any messages were sent) and stops the
view. -/
def do_retry (resp : String) (s : RetryState) : RetryState :=
  let s1 := { s with retryCount := s.retryCount + 1 }
  if is_503_error (some resp) then
    if s1.maxRetries ≤ s1.retryCount then { s1 with terminal := true }
    else s1
  else
    let s2 := if s1.hasHistoryCallback then
        { s1 with historyUpdates := s1.historyUpdates + 1 } else s1
    let s3 := if s2.delivered then
        { s2 with trackedResponses := s2.trackedResponses + 1 } else s2
    { s3 with stopped := true }

/-- A sequence of user-initiated retries; a stopped or terminal view takes
no further clicks (the button is gone or disabled). -/
def runRetries : RetryState → List String → RetryState
  | s, [] => s
  | s, r :: rs =>
      if s.stopped || s.terminal then s else runRetries (do_retry r s) rs

/-- The branch taken by `send_response_with_retry`. -/
inductive SendOutcome where
  | retryFlow
  | sentNormally (historyUpdated : Bool) (tracked : Bool)
  deriving DecidableEq, Repr

/-- `send_response_with_retry`: a 503 response enters the retry flow
(error message + retry button, no history update, no tracking); any other
response runs the history callback and is sent and tracked normally. -/
def send_response_with_retry (resp : Option String) (hasCb delivered : Bool) :
    SendOutcome :=
  if is_503_error resp then SendOutcome.retryFlow
  else SendOutcome.sentNormally hasCb delivered

/-! ### Typing gate (`TypingManager` in `utils/typing.py`)

Discrete-time model of one channel.  `activeMsgs` is the
`_active_messages` set, `signalOn` the running typing session
(stop event not yet set), `pendingStops` the absolute times at which
scheduled `_delayed_stop` tasks will fire (each sleeps 2 time units), and
`lastKeepAlive` the `_last_keep_alive` monotonic stamp (`.get(cid, 0)`
defaults to 0).  A `tick` advances time by one unit and runs every
`_delayed_stop` whose sleep has elapsed. -/

structure GateState where
  activeMsgs : List Nat
  signalOn : Bool
  pendingStops : List Nat
  lastKeepAlive : Nat
  now : Nat
  deriving DecidableEq, Repr

def gateInit (t : Nat) : GateState :=
  { activeMsgs := [], signalOn := false, pendingStops := [],
    lastKeepAlive := 0, now := t }

/-- `TypingManager.start_typing`: add the message id; start a typing
session if none is running. -/
def start_typing (s : GateState) (msgId : Nat) : GateState :=
  let act := if msgId ∈ s.activeMsgs then s.activeMsgs else msgId :: s.activeMsgs
  { s with activeMsgs := act, signalOn := true }

/-- `TypingManager.stop_typing`: discard the message id; when the set
becomes empty, schedule a `_delayed_stop` that fires after the 2-unit
grace period. -/
def stop_typing (s : GateState) (msgId : Nat) : GateState :=
  let act := s.activeMsgs.erase msgId
  if act.isEmpty then
    { s with activeMsgs := act, pendingStops := s.pendingStops ++ [s.now + 2] }
  else
    { s with activeMsgs := act }

/-- `TypingManager.keep_alive`: stamp the current time. -/
def keep_alive (s : GateState) : GateState :=
  { s with lastKeepAlive := s.now }

/-- The body of `_delayed_stop` after its sleep: re-check the count; if
still zero and no recent keep-alive (< 2 units ago), set the stop event;
a recent keep-alive re-schedules another check. -/
def fireDelayedStop (s : GateState) : GateState :=
  if s.activeMsgs.isEmpty then
    if s.now - s.lastKeepAlive < 2 then
      { s with pendingStops := s.pendingStops ++ [s.now + 2] }
    else
      { s with signalOn := false }
  else s

/-- Advance time one unit, firing every due `_delayed_stop`. -/
def gateTick (s : GateState) : GateState :=
  let t := s.now + 1
  let due := s.pendingStops.filter (fun d => d ≤ t)
  let rest := s.pendingStops.filter (fun d => ¬ d ≤ t)
  due.foldl (fun st _ => fireDelayedStop st) { s with now := t, pendingStops := rest }

def gateTicks (s : GateState) : Nat → GateState
  | 0 => s
  | n + 1 => gateTicks (gateTick s) n

/-! ### Response registry (`ResponseTracker` in `cogs/reactions.py`) -/

/-- One tracked response.  (`original_message` and the regenerate closure
are represented by `hasRegen`: `_handle_regenerate` only checks them for
truthiness before replaying.) -/
structure TrackedInfo where
  authorId : Nat
  hasRegen : Bool
  allMessageIds : List Nat
  historyKey : Option ScopeKey
  deriving DecidableEq, Repr

/-- The `ResponseTracker._responses` OrderedDict, oldest first. -/
abbrev Registry := List (Nat × TrackedInfo)

def MAX_TRACKED_RESPONSES : Nat := 1000

/-- `ResponseTracker.get`. -/
def registryGet (r : Registry) (id : Nat) : Option TrackedInfo :=
  (r.find? (fun p => p.1 = id)).map (fun p => p.2)

/-- `ResponseTracker.remove` (`pop(id, None)`). -/
def registryRemove (r : Registry) (id : Nat) : Registry :=
  r.filter (fun p => ¬ p.1 = id)

/-- `ResponseTracker.track`: evict the oldest entry when at capacity, then
bind `id` (an OrderedDict assignment keeps the position of an existing
key, otherwise appends). -/
def registryTrack (r : Registry) (maxSize : Nat) (id : Nat)
    (info : TrackedInfo) : Registry :=
  let r1 := if maxSize ≤ r.length then r.tail else r
  if (r1.find? (fun p => p.1 = id)).isSome then
    r1.map (fun p => if p.1 = id then (id, info) else p)
  else
    r1 ++ [(id, info)]

/-! ### Delete / regenerate reactions (`cogs/reactions.py`) -/

/-- The history-trim loop shared by `_handle_delete` and
`_handle_regenerate`: `for i in range(len(history)-1, -1, -1): if
history[i].role == "model": history.pop(i); break` — scanning from the
end, remove the first model-role entry found.  Rendered functionally by
scanning the reversed list. -/
def removeFirstModel : List Content → List Content
  | [] => []
  | c :: t => if c.role = "model" then t else c :: removeFirstModel t

def removeLastModel (h : List Content) : List Content :=
  (removeFirstModel h.reverse).reverse

/-- `Reactions._handle_delete`: best-effort delete of every split message
from the platform, remove the registry entry, then trim the most recent
model entry from the scope's history (when the key is set and present).
`platform` is the set of message ids that currently exist on the chat
platform. -/
def handle_delete (platform : List Nat) (hist : HStore) (reg : Registry)
    (msgId : Nat) (info : TrackedInfo) :
    List Nat × HStore × Registry :=
  let platform' := platform.filter (fun m => ¬ m ∈ info.allMessageIds)
  let reg' := registryRemove reg msgId
  let hist' :=
    match info.historyKey with
    | some k =>
      match hist k with
      | some h => fun k' => if k' = k then some (removeLastModel h) else hist k'
      | none => hist
    | none => hist
  (platform', hist', reg')

/-- `Reactions._handle_regenerate`: replay the request (`newResp`,
delivered as `newIds`), delete the old splits, remove the old registry
entry, trim the last model entry, then re-track the new delivery under the
new last message id with the same author and history key. -/
def handle_regenerate (platform : List Nat) (hist : HStore) (reg : Registry)
    (msgId : Nat) (info : TrackedInfo) (_newResp : String)
    (newIds : List Nat) : List Nat × HStore × Registry :=
  if ¬ info.hasRegen then (platform, hist, reg)
  else
    let platform' :=
      (platform.filter (fun m => ¬ m ∈ info.allMessageIds)) ++ newIds
    let reg' := registryRemove reg msgId
    let hist' :=
      match info.historyKey with
      | some k =>
        match hist k with
        | some h => fun k' => if k' = k then some (removeLastModel h) else hist k'
        | none => hist
      | none => hist
    let reg'' :=
      match newIds.getLast? with
      | some lastId =>
          registryTrack reg' MAX_TRACKED_RESPONSES lastId
            { authorId := info.authorId, hasRegen := info.hasRegen,
              allMessageIds := newIds, historyKey := info.historyKey }
      | none => reg'
    (platform', hist', reg'')

def DELETE_EMOJI : String := "🗑️"

def REGENERATE_EMOJI : String := "🔄"

/-- The externally determined circumstances of one
`on_raw_reaction_add` event. -/
structure ReactionCtx where
  botUserId : Nat
  payloadUserId : Nat
  emoji : String
  messageId : Nat
  /-- `fetch_channel` succeeded -/
  channelFound : Bool
  /-- `fetch_message` succeeded -/
  messageFound : Bool
  /-- what the regenerate callback would return -/
  regenResponse : String
  /-- the message ids a regenerated delivery would occupy -/
  newMessageIds : List Nat
  deriving DecidableEq, Repr

inductive ReactionOutcome where
  | ignored
  /-- tracked message no longer exists: stale entry dropped -/
  | staleEntryRemoved
  /-- non-author: reaction removed, transient notice sent, nothing else -/
  | rejectedNonAuthor
  | performedDelete
  | performedRegenerate
  deriving DecidableEq, Repr

/-- `Reactions.on_raw_reaction_add`: ignore the bot's own reactions and
non-action emojis; look the message up in the tracker; drop a stale
entry when the message is gone; reject (revert reaction, transient
notice) any reactor other than the recorded author; otherwise dispatch to
delete or regenerate. -/
def on_raw_reaction_add (ctx : ReactionCtx) (platform : List Nat)
    (hist : HStore) (reg : Registry) :
    ReactionOutcome × List Nat × HStore × Registry :=
  if ctx.payloadUserId = ctx.botUserId then
    (ReactionOutcome.ignored, platform, hist, reg)
  else if ¬ (ctx.emoji = DELETE_EMOJI ∨ ctx.emoji = REGENERATE_EMOJI) then
    (ReactionOutcome.ignored, platform, hist, reg)
  else
    match registryGet reg ctx.messageId with
    | none => (ReactionOutcome.ignored, platform, hist, reg)
    | some info =>
      if ¬ ctx.channelFound then
        (ReactionOutcome.ignored, platform, hist, reg)
      else if ¬ ctx.messageFound then
        (ReactionOutcome.staleEntryRemoved, platform, hist,
          registryRemove reg ctx.messageId)
      else if ¬ ctx.payloadUserId = info.authorId then
        (ReactionOutcome.rejectedNonAuthor, platform, hist, reg)
      else if ctx.emoji = DELETE_EMOJI then
        let (p', h', r') := handle_delete platform hist reg ctx.messageId info
        (ReactionOutcome.performedDelete, p', h', r')
      else
        let (p', h', r') := handle_regenerate platform hist reg ctx.messageId
          info ctx.regenResponse ctx.newMessageIds
        (ReactionOutcome.performedRegenerate, p', h', r')

/-- `RetryView.interaction_check`: only the original author may interact;
anybody else gets an ephemeral rejection and `False`. -/
def interaction_check (authorId userId : Nat) : Bool :=
  if userId ≠ authorId then false else true

/-! ## Theorems -/

/-- Every non-absent history list is within the bound. -/
def HistInv (s : HStore) : Prop :=
  ∀ k h, s k = some h → h.length ≤ max_history

theorem histInv_empty : HistInv emptyHStore := by
  intro k h hk
  simp [emptyHStore] at hk

theorem histInv_update (s : HStore) (key : ScopeKey) (c : Option Content)
    (hinv : HistInv s) : HistInv (update_message_history_at s key c) := by
  intro k h hk
  match c with
  | none => exact hinv k h hk
  | some c0 =>
    simp only [update_message_history_at] at hk
    cases hs : s key with
    | some h0 =>
        rw [hs] at hk
        simp only at hk
        by_cases hkk : k = key
        · rw [if_pos hkk] at hk
          have hlen : h0.length ≤ max_history := hinv key h0 hs
          by_cases hb : max_history < (h0 ++ [c0]).length
          · rw [if_pos hb] at hk
            cases hk
            simp only [List.length_tail, List.length_append,
              List.length_singleton]
            omega
          · rw [if_neg hb] at hk
            cases hk
            simp only [List.length_append, List.length_singleton] at hb ⊢
            omega
        · rw [if_neg hkk] at hk
          exact hinv k h hk
    | none =>
        rw [hs] at hk
        simp only at hk
        by_cases hkk : k = key
        · rw [if_pos hkk] at hk
          cases hk
          simp [max_history]
        · rw [if_neg hkk] at hk
          exact hinv k h hk

theorem histInv_applyUpdates (updates : List (ScopeKey × Option Content)) :
    ∀ s : HStore, HistInv s → HistInv (applyHistoryUpdates s updates) := by
  induction updates with
  | nil => intro s hs; exact hs
  | cons u us ih =>
      intro s hs
      have h1 : HistInv (update_message_history_at s u.1 u.2) :=
        histInv_update s u.1 u.2 hs
      simpa [applyHistoryUpdates] using ih _ h1

/-- C1: for every scope key and any sequence of `update_message_history`
calls starting from the empty store, `len(getHistory(scope)) <=
max_history` holds after every call — every intermediate store is
`applyHistoryUpdates emptyHStore` of a prefix, and the bound holds for all
sequences, including the singleton that first creates a scope's
history. -/
theorem history_length_bounded
    (updates : List (ScopeKey × Option Content)) (k : ScopeKey) :
    (get_message_history_contents (applyHistoryUpdates emptyHStore updates)
      k).length ≤ max_history := by
  have hinv := histInv_applyUpdates updates emptyHStore histInv_empty
  unfold get_message_history_contents
  cases hs : applyHistoryUpdates emptyHStore updates k with
  | none => simp [max_history]
  | some h => simpa using hinv k h hs

/-- C8 counterexample: the claim says an entry built from empty generation
text is a no-op, but `create_model_content("")` is a real `Content`
(only `None` text gives `None`), and `update_message_history` appends it:
the scope's history changes from absent to a one-entry list. -/
theorem empty_text_entry_is_appended :
    update_message_history_at emptyHStore (ScopeTag.dm, 1)
        (create_model_content (some "")) (ScopeTag.dm, 1) ≠
      emptyHStore (ScopeTag.dm, 1) := by
  decide

/-- C8 amended: `update_message_history` is a no-op exactly when the entry
is `None`; `create_model_content` yields `None` only for `None` text, so a
model entry built from `None` text is skipped, while an entry built from
any actual string — the empty string included — is appended. -/
theorem none_entry_is_noop (s : HStore) (k : ScopeKey) :
    update_message_history_at s k none = s ∧
    create_model_content none = none ∧
    ∀ t : String,
      (update_message_history_at s k (create_model_content (some t))) k ≠
        none := by
  refine ⟨rfl, rfl, ?_⟩
  intro t
  unfold update_message_history_at create_model_content
  cases hs : s k <;> simp [hs]

/-- C9: scope-key resolution is total and follows the fixed priority
Thread > DirectMessage > TrackedChannel > Mention (so a thread inside a
tracked channel resolves to the shared thread scope), and the settings-key
resolver agrees with the history-key resolver on every message. -/
theorem scope_resolution_priority (m : MsgCtx) :
    get_history_key m =
      resolveScope_spec (decide (m.channelId ∈ m.trackedThreads)) m.isDM
        (decide (m.channelId ∈ m.trackedChannels)) m.channelId m.authorId ∧
    get_settings_key m = get_history_key m := by
  constructor
  · unfold get_history_key resolveScope_spec
    by_cases h1 : m.channelId ∈ m.trackedThreads <;>
      by_cases h2 : m.isDM = true <;>
        by_cases h3 : m.channelId ∈ m.trackedChannels <;>
          simp [h1, h2, h3]
  · rfl

/-- C10: `is_503_error` is true exactly for a non-empty string containing
both `"503"` and `"UNAVAILABLE"` (false for `None` and `""`), and
`send_response_with_retry` enters the retry flow precisely on that
classification — whatever else the text says. -/
theorem is503_characterization (t : Option String) (hasCb delivered : Bool) :
    (is_503_error t = true ↔
      ∃ s, t = some s ∧ s ≠ "" ∧ strContains s "503" = true ∧
        strContains s "UNAVAILABLE" = true) ∧
    (send_response_with_retry t hasCb delivered = SendOutcome.retryFlow ↔
      is_503_error t = true) := by
  constructor
  · cases t with
    | none => simp [is_503_error]
    | some s =>
        by_cases hs : s = ""
        · subst hs; simp [is_503_error]
        · simp [is_503_error, hs, Bool.and_eq_true]
  · unfold send_response_with_retry
    by_cases h : is_503_error t = true
    · simp [h]
    · simp [h]

/-- A store with no entry at `k` is left untouched by any number of
decrements at `k`. -/
theorem decrementN_absent (k : ScopeKey) :
    ∀ (j : Nat) (s : PStore), s k = none → decrementN s k j = s := by
  intro j
  induction j with
  | zero => intro s _; rfl
  | succ j ih =>
      intro s hs
      have hstep : decrement_pending_context s k = (0, s) := by
        unfold decrement_pending_context
        rw [hs]
      show decrementN (decrement_pending_context s k).2 k j = s
      rw [hstep]
      exact ih s hs

/-- Iterated decrement on an entry holding `n` uses: after `j < n` rounds
the entry holds `n - j`; after `n` or more rounds it is gone.  Keys other
than `k` are never touched. -/
theorem decrementN_at (k : ScopeKey) (c : List Content) (l : Option Nat) :
    ∀ (j n : Nat) (s : PStore),
      s k = some { contents := c, remaining_uses := (n : Int),
                   listen_channel_id := l } →
      1 ≤ n →
      ((decrementN s k j) k =
        (if j < n then
          some { contents := c, remaining_uses := ((n - j : Nat) : Int),
                 listen_channel_id := l }
         else none)) ∧
      ∀ k', k' ≠ k → (decrementN s k j) k' = s k' := by
  intro j
  induction j with
  | zero =>
      intro n s hs hn
      refine ⟨?_, fun k' _ => rfl⟩
      rw [if_pos (by omega)]
      simpa [decrementN] using hs
  | succ j ih =>
      intro n s hs hn
      have hstep : decrementN s k (j + 1) =
          decrementN (decrement_pending_context s k).2 k j := rfl
      by_cases h1 : n = 1
      · subst h1
        have hdec : decrement_pending_context s k =
            (0, fun k' => if k' = k then none else s k') := by
          unfold decrement_pending_context
          rw [hs]
          norm_num
        have hf : (decrement_pending_context s k).2 =
            fun k' => if k' = k then none else s k' := by rw [hdec]
        have habs :
            decrementN (decrement_pending_context s k).2 k j =
              (decrement_pending_context s k).2 :=
          decrementN_absent k j _ (by rw [hf]; simp)
        rw [hstep, habs, hf]
        refine ⟨?_, ?_⟩
        · rw [if_neg (by omega)]
          simp
        · intro k' hk'
          simp [hk']
      · have h2 : 2 ≤ n := by omega
        have hr : ¬ ((n : Int) - 1 ≤ 0) := by omega
        have hval : ((n : Int) - 1) = (((n - 1 : Nat)) : Int) := by omega
        have hdec : decrement_pending_context s k =
            ((n : Int) - 1,
              fun k' => if k' = k then
                some { contents := c, remaining_uses := (n : Int) - 1,
                       listen_channel_id := l }
                else s k') := by
          unfold decrement_pending_context
          rw [hs]
          simp [hr]
        have hf : (decrement_pending_context s k).2 k =
            some { contents := c, remaining_uses := ((n - 1 : Nat) : Int),
                   listen_channel_id := l } := by
          rw [hdec]
          simp [hval]
        have hrest := ih (n - 1) _ hf (by omega)
        rw [hstep]
        refine ⟨?_, ?_⟩
        · rw [hrest.1]
          by_cases hj : j < n - 1
          · rw [if_pos hj, if_pos (by omega)]
            congr 2
            omega
          · rw [if_neg hj, if_neg (by omega)]
        · intro k' hk'
          rw [hrest.2 k' hk', hdec]
          simp [hk']

/-- C3: `decrement_pending_context` decrements by one, deletes the entry
and returns 0 when the count reaches zero, and returns 0 leaving the store
untouched when no entry exists; a fresh pending context with `n ≥ 1` uses
is gone after `n` decrements, and after `n - 1` decrements exactly the one
entry for that scope remains, holding `remaining_uses = 1`. -/
theorem pending_context_lifecycle :
    (∀ (s : PStore) (k : ScopeKey),
      (s k = none → decrement_pending_context s k = (0, s)) ∧
      (∀ ctx, s k = some ctx →
        (ctx.remaining_uses - 1 ≤ 0 →
          (decrement_pending_context s k).1 = 0 ∧
          (decrement_pending_context s k).2 k = none) ∧
        (0 < ctx.remaining_uses - 1 →
          (decrement_pending_context s k).1 = ctx.remaining_uses - 1 ∧
          (decrement_pending_context s k).2 k =
            some { ctx with remaining_uses := ctx.remaining_uses - 1 }))) ∧
    (∀ (n : Nat) (c : List Content) (l : Option Nat) (k : ScopeKey),
      1 ≤ n →
      (decrementN (set_pending_context emptyPStore k c (n : Int) l) k n) k =
        none ∧
      (decrementN (set_pending_context emptyPStore k c (n : Int) l) k
          (n - 1)) k =
        some { contents := c, remaining_uses := 1, listen_channel_id := l } ∧
      ∀ k', k' ≠ k →
        (decrementN (set_pending_context emptyPStore k c (n : Int) l) k
          (n - 1)) k' = none) := by
  constructor
  · intro s k
    constructor
    · intro hs
      unfold decrement_pending_context
      rw [hs]
    · intro ctx hs
      constructor
      · intro hle
        unfold decrement_pending_context
        rw [hs]
        simp [hle]
      · intro hgt
        unfold decrement_pending_context
        rw [hs]
        have : ¬ (ctx.remaining_uses - 1 ≤ 0) := by omega
        simp [this]
  · intro n c l k hn
    have hset : (set_pending_context emptyPStore k c (n : Int) l) k =
        some { contents := c, remaining_uses := (n : Int),
               listen_channel_id := l } := by
      simp [set_pending_context]
    have hmain := decrementN_at k c l n n _ hset hn
    have hmain' := decrementN_at k c l (n - 1) n _ hset hn
    refine ⟨?_, ?_, ?_⟩
    · rw [hmain.1, if_neg (by omega)]
    · rw [hmain'.1, if_pos (by omega)]
      congr 2
      omega
    · intro k' hk'
      rw [hmain'.2 k' hk']
      simp [set_pending_context, emptyPStore, hk']

/-- C3 witness: a fresh pending context with 2 uses at the DM scope of
user 7 survives one decrement (holding 1 use) and is gone after two. -/
theorem pending_context_lifecycle_witness :
    (decrementN (set_pending_context emptyPStore (ScopeTag.dm, 7) []
        ((2 : Nat) : Int) none) (ScopeTag.dm, 7) 2) (ScopeTag.dm, 7) =
      none ∧
    (decrementN (set_pending_context emptyPStore (ScopeTag.dm, 7) []
        ((2 : Nat) : Int) none) (ScopeTag.dm, 7) (2 - 1)) (ScopeTag.dm, 7) =
      some { contents := [], remaining_uses := 1, listen_channel_id := none } := by
  have h := pending_context_lifecycle.2 2 [] none (ScopeTag.dm, 7)
    (by decide)
  exact ⟨h.1, h.2.1⟩

/-- The pool-exhausted message literally contains the decimal rendering of
the pool size. -/
theorem exhaustedMessage_names_pool (n : Nat) (e : String) :
    strContains (exhaustedMessage n e) (toString n) = true := by
  unfold strContains exhaustedMessage
  have hd : ("All " ++ toString n ++
      " API key(s) have been rate limited. Please wait and try again later. Last error: "
      ++ e).toList =
      "All ".toList ++ ((toString n).toList ++
        (" API key(s) have been rate limited. Please wait and try again later. Last error: ".toList
          ++ e.toList)) := by
    show String.data _ = _
    rw [String.data_append, String.data_append, String.data_append]
    simp [List.append_assoc]
  rw [hd]
  exact hasSub_append _ _ _

/-- One unfolding step of the retry loop. -/
theorem retryAux_succ {α : Type} (call : Nat → Except String α)
    (total k : Nat) (mgr : KeyManager) :
    retryAux call total mgr (k + 1) =
      (match call mgr.currentIndex with
      | Except.ok a => ⟨RetryOutcome.ok a, [mgr.currentIndex], mgr⟩
      | Except.error e =>
        if is_rate_limit_error e then
          if 0 < k then
            match rotate_key mgr with
            | (true, mgr') =>
                let r := retryAux call total mgr' k
                ⟨r.outcome, mgr.currentIndex :: r.attempts, r.finalMgr⟩
            | (false, _) =>
                ⟨RetryOutcome.exhausted total e, [mgr.currentIndex], mgr⟩
          else ⟨RetryOutcome.exhausted total e, [mgr.currentIndex], mgr⟩
        else ⟨RetryOutcome.fatal e, [mgr.currentIndex], mgr⟩) := rfl

/-- In a pool of `total ≥ 2` keys, a call that hits the rate limit on
every key makes one attempt per remaining key, rotating cyclically, and
ends in the pool-exhausted error. -/
theorem retryAux_all_quota {α : Type} (call : Nat → Except String α)
    (err : Nat → String) (total : Nat)
    (hcall : ∀ i, call i = Except.error (err i))
    (hq : ∀ i, is_rate_limit_error (err i) = true)
    (htot : 2 ≤ total) :
    ∀ (fuel : Nat) (mgr : KeyManager), mgr.numKeys = total →
      mgr.currentIndex < total → 0 < fuel →
      (retryAux call total mgr fuel).outcome =
        RetryOutcome.exhausted total
          (err ((mgr.currentIndex + (fuel - 1)) % total)) ∧
      (retryAux call total mgr fuel).attempts =
        (List.range fuel).map (fun i => (mgr.currentIndex + i) % total) := by
  intro fuel
  induction fuel with
  | zero => intro mgr _ _ h0; omega
  | succ k ih =>
      intro mgr hkeys hidx _
      by_cases hk : 0 < k
      · have hrot : rotate_key mgr =
            (true, { mgr with currentIndex := (mgr.currentIndex + 1) % total }) := by
          unfold rotate_key
          rw [if_neg (by omega), hkeys]
        have hrec := ih { mgr with currentIndex := (mgr.currentIndex + 1) % total }
          hkeys (Nat.mod_lt _ (by omega)) hk
        have hunf : retryAux call total mgr (k + 1) =
            ⟨(retryAux call total
                { mgr with currentIndex := (mgr.currentIndex + 1) % total } k).outcome,
              mgr.currentIndex :: (retryAux call total
                { mgr with currentIndex := (mgr.currentIndex + 1) % total } k).attempts,
              (retryAux call total
                { mgr with currentIndex := (mgr.currentIndex + 1) % total } k).finalMgr⟩ := by
          rw [retryAux_succ, hcall mgr.currentIndex]
          simp only [hq mgr.currentIndex, if_true, hk, if_pos hk, hrot]
        rw [hunf]
        refine ⟨?_, ?_⟩
        · rw [hrec.1]
          simp only
          congr 2
          rw [Nat.mod_add_mod]
          congr 1
          omega
        · rw [hrec.2]
          simp only
          rw [List.range_succ_eq_map]
          simp only [List.map_cons, List.map_map, Nat.add_zero,
            Nat.mod_eq_of_lt hidx]
          congr 1
          apply List.map_congr_left
          intro i _
          simp only [Function.comp]
          rw [Nat.mod_add_mod]
          congr 1
          omega
      · have hk0 : k = 0 := by omega
        subst hk0
        have hunf : retryAux call total mgr 1 =
            ⟨RetryOutcome.exhausted total (err mgr.currentIndex),
              [mgr.currentIndex], mgr⟩ := by
          rw [retryAux_succ, hcall mgr.currentIndex]
          simp [hq mgr.currentIndex]
        rw [hunf]
        refine ⟨?_, ?_⟩
        · simp only
          congr 2
          simp [Nat.mod_eq_of_lt hidx]
        · rw [show List.range 1 = [0] from rfl]
          simp [Nat.mod_eq_of_lt hidx]

/-- C2: with an `n ≥ 1` key pool and a call that reports a rate limit on
every key, `execute_with_retry` makes exactly one attempt per key — `n` in
all, wrapping cyclically from the starting cursor — and raises the
terminal pool-exhausted error, whose message names the pool size `n`.  A
single-key pool makes exactly one attempt and fails without rotating, and
a non-429 error is re-raised at once after a single attempt with the
cursor unmoved. -/
theorem key_rotation_exhausts_pool {α : Type} (call : Nat → Except String α)
    (err : Nat → String) (mgr : KeyManager)
    (hidx : mgr.currentIndex < mgr.numKeys) :
    ((∀ i, call i = Except.error (err i)) →
      (∀ i, is_rate_limit_error (err i) = true) →
      (∃ e, (execute_with_retry call mgr).outcome =
          RetryOutcome.exhausted mgr.numKeys e ∧
        strContains (exhaustedMessage mgr.numKeys e)
          (toString mgr.numKeys) = true) ∧
      (execute_with_retry call mgr).attempts =
        (List.range mgr.numKeys).map
          (fun i => (mgr.currentIndex + i) % mgr.numKeys) ∧
      (execute_with_retry call mgr).attempts.length = mgr.numKeys) ∧
    (mgr.numKeys = 1 →
      ∀ e, call mgr.currentIndex = Except.error e →
        is_rate_limit_error e = true →
        execute_with_retry call mgr =
          ⟨RetryOutcome.exhausted 1 e, [mgr.currentIndex], mgr⟩) ∧
    (∀ e, call mgr.currentIndex = Except.error e →
      is_rate_limit_error e = false →
      execute_with_retry call mgr =
        ⟨RetryOutcome.fatal e, [mgr.currentIndex], mgr⟩) := by
  refine ⟨?_, ?_, ?_⟩
  · intro hcall hq
    by_cases h1 : mgr.numKeys = 1
    · have h0 : mgr.currentIndex = 0 := by omega
      have hunf : execute_with_retry call mgr =
          ⟨RetryOutcome.exhausted 1 (err mgr.currentIndex),
            [mgr.currentIndex], mgr⟩ := by
        show retryAux call mgr.numKeys mgr mgr.numKeys = _
        rw [h1, retryAux_succ, hcall mgr.currentIndex]
        simp [hq mgr.currentIndex]
      rw [hunf]
      refine ⟨⟨err mgr.currentIndex, by rw [h1], ?_⟩, ?_, ?_⟩
      · rw [h1]; exact exhaustedMessage_names_pool _ _
      · rw [h1, h0]; rfl
      · rw [h1]; rfl
    · have h2 : 2 ≤ mgr.numKeys := by omega
      have hm := retryAux_all_quota call err mgr.numKeys hcall hq h2
        mgr.numKeys mgr rfl hidx (by omega)
      refine ⟨⟨err ((mgr.currentIndex + (mgr.numKeys - 1)) % mgr.numKeys),
          hm.1, exhaustedMessage_names_pool _ _⟩, hm.2, ?_⟩
      show (retryAux call mgr.numKeys mgr mgr.numKeys).attempts.length = _
      rw [hm.2]
      simp
  · intro h1 e hcall hq
    have hunf : execute_with_retry call mgr =
        ⟨RetryOutcome.exhausted 1 e, [mgr.currentIndex], mgr⟩ := by
      show retryAux call mgr.numKeys mgr mgr.numKeys = _
      rw [h1, retryAux_succ, hcall]
      simp [hq]
    exact hunf
  · intro e hcall hq
    cases hn : mgr.numKeys with
    | zero => omega
    | succ m =>
        show retryAux call mgr.numKeys mgr mgr.numKeys = _
        rw [hn, retryAux_succ, hcall]
        simp [hq]

/-- C2 witness: a 3-key pool starting at key 0 against a call that always
reports `429 RESOURCE_EXHAUSTED` attempts keys 0, 1, 2 and raises the
pool-exhausted error naming 3; a non-429 error on the same pool is fatal
after one attempt. -/
theorem key_rotation_exhausts_pool_witness :
    (∃ e, (execute_with_retry
        (fun _ => (Except.error "429 RESOURCE_EXHAUSTED" : Except String Unit))
        { numKeys := 3, currentIndex := 0 }).outcome =
        RetryOutcome.exhausted 3 e ∧
      strContains (exhaustedMessage 3 e) (toString 3) = true) ∧
    (execute_with_retry
        (fun _ => (Except.error "429 RESOURCE_EXHAUSTED" : Except String Unit))
        { numKeys := 3, currentIndex := 0 }).attempts =
      (List.range 3).map (fun i => (0 + i) % 3) ∧
    execute_with_retry
        (fun _ => (Except.error "boom 500" : Except String Unit))
        { numKeys := 3, currentIndex := 0 } =
      ⟨RetryOutcome.fatal "boom 500", [0], { numKeys := 3, currentIndex := 0 }⟩ := by
  have hq := (key_rotation_exhausts_pool
      (fun _ => (Except.error "429 RESOURCE_EXHAUSTED" : Except String Unit))
      (fun _ => "429 RESOURCE_EXHAUSTED")
      { numKeys := 3, currentIndex := 0 } (by decide)).1
    (fun _ => rfl) (fun _ => by decide)
  have hf := (key_rotation_exhausts_pool
      (fun _ => (Except.error "boom 500" : Except String Unit))
      (fun _ => "boom 500")
      { numKeys := 3, currentIndex := 0 } (by decide)).2.2
    "boom 500" rfl (by decide)
  exact ⟨hq.1, hq.2.1, hf⟩

/-- A failed (still-503) retry attempt below the bound only bumps the
counter: no history update, no tracking, view still live. -/
theorem do_retry_fail (f : String) (s : RetryState)
    (h503 : is_503_error (some f) = true)
    (hbound : s.retryCount + 1 < s.maxRetries) :
    do_retry f s = { s with retryCount := s.retryCount + 1 } := by
  unfold do_retry
  rw [h503]
  simp only [if_true]
  rw [if_neg (by simp; omega)]

/-- A successful retry attempt performs the history update (when a
callback was supplied), tracks the delivered response (when messages were
sent) and stops the view. -/
theorem do_retry_success (r : String) (s : RetryState)
    (h503 : is_503_error (some r) = false)
    (hcb : s.hasHistoryCallback = true) (hd : s.delivered = true) :
    do_retry r s =
      { s with retryCount := s.retryCount + 1,
               historyUpdates := s.historyUpdates + 1,
               trackedResponses := s.trackedResponses + 1,
               stopped := true } := by
  unfold do_retry
  rw [h503]
  simp only [Bool.false_eq_true, if_false, hcb, if_true, hd]

/-- Driving the view through a list of 503 failures (all below the retry
bound) just accumulates the counter. -/
theorem runRetries_all_fail (fails : List String)
    (hf : ∀ f ∈ fails, is_503_error (some f) = true) :
    ∀ s : RetryState, s.stopped = false → s.terminal = false →
      s.retryCount + fails.length < s.maxRetries →
      runRetries s fails = { s with retryCount := s.retryCount + fails.length } := by
  induction fails with
  | nil => intro s _ _ _; rfl
  | cons f fs ih =>
      intro s hst htm hbound
      have hstep : do_retry f s = { s with retryCount := s.retryCount + 1 } :=
        do_retry_fail f s (hf f (by simp))
          (by simp only [List.length_cons] at hbound; omega)
      have hrec := ih (fun g hg => hf g (by simp [hg]))
        { s with retryCount := s.retryCount + 1 } hst htm
        (by simp only [List.length_cons] at hbound
            show s.retryCount + 1 + fs.length < s.maxRetries
            omega)
      have hcond : (s.stopped || s.terminal) = false := by simp [hst, htm]
      show (if s.stopped || s.terminal then s
            else runRetries (do_retry f s) fs) = _
      rw [hcond]
      simp only [Bool.false_eq_true, if_false]
      rw [hstep, hrec]
      simp only [RetryState.mk.injEq, List.length_cons, and_true, true_and]
      all_goals omega

/-- Failures below the bound followed by one success: the view records the
history update once, tracks once, and stops. -/
theorem runRetries_fail_then_succeed (fails : List String) (succ : String)
    (hf : ∀ f ∈ fails, is_503_error (some f) = true)
    (hs : is_503_error (some succ) = false) :
    ∀ s : RetryState, s.stopped = false → s.terminal = false →
      s.hasHistoryCallback = true → s.delivered = true →
      s.retryCount + fails.length < s.maxRetries →
      runRetries s (fails ++ [succ]) =
        { s with retryCount := s.retryCount + fails.length + 1,
                 historyUpdates := s.historyUpdates + 1,
                 trackedResponses := s.trackedResponses + 1,
                 stopped := true } := by
  induction fails with
  | nil =>
      intro s hst htm hcb hd _
      have hcond : (s.stopped || s.terminal) = false := by simp [hst, htm]
      show (if s.stopped || s.terminal then s
            else runRetries (do_retry succ s) []) = _
      rw [hcond]
      simp only [Bool.false_eq_true, if_false]
      show do_retry succ s = _
      rw [do_retry_success succ s hs hcb hd]
      simp only [RetryState.mk.injEq, List.length_nil, and_true, true_and]
  | cons f fs ih =>
      intro s hst htm hcb hd hbound
      have hstep : do_retry f s = { s with retryCount := s.retryCount + 1 } :=
        do_retry_fail f s (hf f (by simp))
          (by simp only [List.length_cons] at hbound; omega)
      have hrec := ih (fun g hg => hf g (by simp [hg]))
        { s with retryCount := s.retryCount + 1 } hst htm hcb hd
        (by simp only [List.length_cons] at hbound
            show s.retryCount + 1 + fs.length < s.maxRetries
            omega)
      have hcond : (s.stopped || s.terminal) = false := by simp [hst, htm]
      show (if s.stopped || s.terminal then s
            else runRetries (do_retry f s) (fs ++ [succ])) = _
      rw [hcond]
      simp only [Bool.false_eq_true, if_false]
      rw [hstep, hrec]
      simp only [RetryState.mk.injEq, List.length_cons, and_true, true_and]
      all_goals omega

/-- C4: when the retried generation call fails with a 503 some number of
times (below the 5-attempt bound) and then succeeds, the retry loop
performs the deferred history update exactly once, registers exactly one
tracked response for the delivered messages, and stops; after any prefix
of the failing attempts, no history update has run and nothing has been
tracked. -/
theorem retry_updates_history_once (maxR : Nat) (fails : List String)
    (succ : String)
    (hf : ∀ f ∈ fails, is_503_error (some f) = true)
    (hs : is_503_error (some succ) = false)
    (hbound : fails.length < maxR) :
    ((runRetries (mkRetryView maxR true true)
        (fails ++ [succ])).historyUpdates = 1 ∧
      (runRetries (mkRetryView maxR true true)
        (fails ++ [succ])).trackedResponses = 1 ∧
      (runRetries (mkRetryView maxR true true)
        (fails ++ [succ])).stopped = true) ∧
    ∀ i ≤ fails.length,
      (runRetries (mkRetryView maxR true true)
        (fails.take i)).historyUpdates = 0 ∧
      (runRetries (mkRetryView maxR true true)
        (fails.take i)).trackedResponses = 0 ∧
      (runRetries (mkRetryView maxR true true)
        (fails.take i)).stopped = false := by
  constructor
  · have h := runRetries_fail_then_succeed fails succ hf hs
      (mkRetryView maxR true true) rfl rfl rfl rfl
      (by simp [mkRetryView]; omega)
    rw [h]
    exact ⟨rfl, rfl, rfl⟩
  · intro i hi
    have hfi : ∀ f ∈ fails.take i, is_503_error (some f) = true :=
      fun f hfin => hf f (List.take_subset i fails hfin)
    have h := runRetries_all_fail (fails.take i) hfi
      (mkRetryView maxR true true) rfl rfl
      (by simp [mkRetryView]
          have := List.length_take_le i fails
          omega)
    rw [h]
    exact ⟨rfl, rfl, rfl⟩

/-- C4 witness: two 503 failures then a success under the default bound of
5 gives exactly one history update, one tracked response, and a stopped
view; after the two failures alone nothing has been recorded. -/
theorem retry_updates_history_once_witness :
    ((runRetries (mkRetryView 5 true true)
        (["503 UNAVAILABLE", "503 UNAVAILABLE"] ++ ["hello"])).historyUpdates = 1 ∧
      (runRetries (mkRetryView 5 true true)
        (["503 UNAVAILABLE", "503 UNAVAILABLE"] ++ ["hello"])).trackedResponses = 1 ∧
      (runRetries (mkRetryView 5 true true)
        (["503 UNAVAILABLE", "503 UNAVAILABLE"] ++ ["hello"])).stopped = true) ∧
    (runRetries (mkRetryView 5 true true)
        (["503 UNAVAILABLE", "503 UNAVAILABLE"].take 2)).historyUpdates = 0 := by
  have h := retry_updates_history_once 5
    ["503 UNAVAILABLE", "503 UNAVAILABLE"] "hello"
    (by intro f hfin
        simp only [List.mem_cons, List.not_mem_nil, or_false] at hfin
        rcases hfin with h1 | h1 <;> subst h1 <;> decide)
    (by decide) (by decide)
  exact ⟨h.1, (h.2 2 (by decide)).1⟩

/-- With no scheduled `_delayed_stop`, a tick only advances the clock. -/
theorem gateTick_no_pending (s : GateState) (h : s.pendingStops = []) :
    gateTick s = { s with now := s.now + 1 } := by
  unfold gateTick
  rw [h]
  rfl

theorem gateTicks_no_pending :
    ∀ (n : Nat) (s : GateState), s.pendingStops = [] →
      gateTicks s n = { s with now := s.now + n } := by
  intro n
  induction n with
  | zero => intro s _; rfl
  | succ n ih =>
      intro s h
      show gateTicks (gateTick s) n = _
      rw [gateTick_no_pending s h]
      rw [ih { s with now := s.now + 1 } h]
      simp only [GateState.mk.injEq, and_true, true_and]
      omega

/-- C5: on one channel with no other concurrent work, `enter` then `exit`
leaves the typing signal running, still running one time unit later, and
stopped once the 2-unit grace period has elapsed — never before; a
`keep_alive` touch inside the grace window keeps it running past the
original deadline.  With two overlapping requests, `enter`, `enter`,
`exit` leaves the signal active with one in-flight id (indefinitely, in
the absence of further events), and the second `exit` stops it exactly
after the grace period. -/
theorem typing_gate_grace_period (a b : Nat) (hab : a ≠ b) :
    (stop_typing (start_typing (gateInit 0) a) a).signalOn = true ∧
    (gateTicks (stop_typing (start_typing (gateInit 0) a) a) 1).signalOn =
      true ∧
    (gateTicks (stop_typing (start_typing (gateInit 0) a) a) 2).signalOn =
      false ∧
    (gateTicks (keep_alive
      (gateTicks (stop_typing (start_typing (gateInit 0) a) a) 1))
      1).signalOn = true ∧
    (stop_typing (start_typing (start_typing (gateInit 0) a) b)
      a).activeMsgs = [b] ∧
    (stop_typing (start_typing (start_typing (gateInit 0) a) b)
      a).signalOn = true ∧
    (∀ n, (gateTicks (stop_typing (start_typing (start_typing (gateInit 0) a)
      b) a) n).signalOn = true) ∧
    (gateTicks (stop_typing (stop_typing (start_typing (start_typing
      (gateInit 0) a) b) a) b) 1).signalOn = true ∧
    (gateTicks (stop_typing (stop_typing (start_typing (start_typing
      (gateInit 0) a) b) a) b) 2).signalOn = false := by
  have hba : b ≠ a := Ne.symm hab
  have hsa : stop_typing (start_typing (gateInit 0) a) a =
      { activeMsgs := [], signalOn := true, pendingStops := [2],
        lastKeepAlive := 0, now := 0 } := by
    simp [gateInit, start_typing, stop_typing]
  have hg : stop_typing (start_typing (start_typing (gateInit 0) a) b) a =
      { activeMsgs := [b], signalOn := true, pendingStops := [],
        lastKeepAlive := 0, now := 0 } := by
    simp [gateInit, start_typing, stop_typing, hba, List.erase_cons,
      beq_iff_eq]
  have hg2 : stop_typing
      { activeMsgs := [b], signalOn := true, pendingStops := [],
        lastKeepAlive := 0, now := 0 } b =
      { activeMsgs := [], signalOn := true, pendingStops := [2],
        lastKeepAlive := 0, now := 0 } := by
    simp [stop_typing]
  refine ⟨?_, ?_, ?_, ?_, ?_, ?_, ?_, ?_, ?_⟩
  · rw [hsa]
  · rw [hsa]; decide
  · rw [hsa]; decide
  · rw [hsa]; decide
  · rw [hg]
  · rw [hg]
  · intro n
    rw [hg, gateTicks_no_pending n _ rfl]
  · rw [hg, hg2]; decide
  · rw [hg, hg2]; decide

/-- C5 witness: the grace-period behaviour at the concrete request ids 1
and 2. -/
theorem typing_gate_grace_period_witness :
    (gateTicks (stop_typing (start_typing (gateInit 0) 1) 1) 1).signalOn =
      true ∧
    (gateTicks (stop_typing (start_typing (gateInit 0) 1) 1) 2).signalOn =
      false ∧
    (stop_typing (start_typing (start_typing (gateInit 0) 1) 2)
      1).activeMsgs = [2] ∧
    (gateTicks (stop_typing (stop_typing (start_typing (start_typing
      (gateInit 0) 1) 2) 1) 2) 2).signalOn = false := by
  have h := typing_gate_grace_period 1 2 (by decide)
  exact ⟨h.2.1, h.2.2.1, h.2.2.2.2.1, h.2.2.2.2.2.2.2.2⟩

/-- `removeFirstModel` walks past a prefix holding no model-role entry and
removes the first model entry it meets. -/
theorem removeFirstModel_skips_nonmodel (rest : List Content) (m : Content)
    (hm : m.role = "model") :
    ∀ l : List Content, (∀ y ∈ l, y.role ≠ "model") →
      removeFirstModel (l ++ m :: rest) = l ++ rest := by
  intro l
  induction l with
  | nil =>
      intro _
      show removeFirstModel (m :: rest) = rest
      unfold removeFirstModel
      rw [if_pos hm]
  | cons c t ih =>
      intro hl
      show removeFirstModel (c :: (t ++ m :: rest)) = c :: (t ++ rest)
      unfold removeFirstModel
      rw [if_neg (hl c (by simp)), ih (fun y hy => hl y (by simp [hy]))]

/-- The history-trim loop removes exactly the most recent model-role entry
(scanning from the end, stopping at the first match) and nothing else. -/
theorem removeLastModel_split (xs ys : List Content) (m : Content)
    (hm : m.role = "model") (hys : ∀ y ∈ ys, y.role ≠ "model") :
    removeLastModel (xs ++ m :: ys) = xs ++ ys := by
  unfold removeLastModel
  rw [List.reverse_append, List.reverse_cons, List.append_assoc,
    List.singleton_append]
  rw [removeFirstModel_skips_nonmodel xs.reverse m hm ys.reverse
    (fun y hy => hys y (List.mem_reverse.mp hy))]
  rw [List.reverse_append, List.reverse_reverse, List.reverse_reverse]

/-- After `remove`, the registry no longer resolves the id. -/
theorem registryGet_remove_self (r : Registry) (id : Nat) :
    registryGet (registryRemove r id) id = none := by
  induction r with
  | nil => rfl
  | cons p t ih =>
      unfold registryRemove at ih ⊢
      rw [List.filter_cons]
      by_cases h : p.1 = id
      · rw [if_neg (by simp [h])]
        exact ih
      · rw [if_pos (by simp [h])]
        unfold registryGet at ih ⊢
        rw [List.find?_cons_of_neg _ (by simp [h])]
        exact ih

/-- C6: the authorized delete flow removes the response's message ids from
the platform (and nothing else), drops the registry entry so the tracked
id no longer resolves, and removes exactly the most recent model-role
entry from the scope's history, leaving all other entries — and all other
scopes — unchanged and in order. -/
theorem delete_flow (platform : List Nat) (hist : HStore) (reg : Registry)
    (msgId : Nat) (info : TrackedInfo) (k : ScopeKey)
    (xs ys : List Content) (m : Content)
    (hkey : info.historyKey = some k)
    (hhist : hist k = some (xs ++ m :: ys))
    (hm : m.role = "model")
    (hys : ∀ y ∈ ys, y.role ≠ "model") :
    (handle_delete platform hist reg msgId info).2.1 k = some (xs ++ ys) ∧
    (∀ k', k' ≠ k →
      (handle_delete platform hist reg msgId info).2.1 k' = hist k') ∧
    registryGet (handle_delete platform hist reg msgId info).2.2 msgId =
      none ∧
    (∀ i ∈ info.allMessageIds,
      i ∉ (handle_delete platform hist reg msgId info).1) ∧
    (∀ i ∈ platform, i ∉ info.allMessageIds →
      i ∈ (handle_delete platform hist reg msgId info).1) := by
  have h21 : (handle_delete platform hist reg msgId info).2.1 =
      fun k' => if k' = k then some (removeLastModel (xs ++ m :: ys))
                else hist k' := by
    unfold handle_delete
    rw [hkey]
    show (match hist k with
          | some h => fun k' => if k' = k then some (removeLastModel h)
                                else hist k'
          | none => hist) = _
    rw [hhist]
  have h1 : (handle_delete platform hist reg msgId info).1 =
      platform.filter (fun mm => ¬ mm ∈ info.allMessageIds) := rfl
  have h22 : (handle_delete platform hist reg msgId info).2.2 =
      registryRemove reg msgId := rfl
  refine ⟨?_, ?_, ?_, ?_, ?_⟩
  · rw [h21]
    simp [removeLastModel_split xs ys m hm hys]
  · intro k' hk'
    rw [h21]
    simp only [if_neg hk']
  · rw [h22]
    exact registryGet_remove_self reg msgId
  · intro i hi
    rw [h1]
    simp [List.mem_filter, hi]
  · intro i hi hni
    rw [h1]
    simp [List.mem_filter, hi, hni]

/-- C6 witness: from history `[User(A), Model(B), User(C), Model(D)]` with
a tracked response for message 100 delivered for `Model(D)`, the delete
flow yields `[User(A), Model(B), User(C)]`, the platform message is gone,
and the tracked id no longer resolves. -/
theorem delete_flow_witness :
    (handle_delete [100]
        (fun k' => if k' = (ScopeTag.dm, 5) then
          some [{ role := "user", parts := [{ text := "A" }] },
                { role := "model", parts := [{ text := "B" }] },
                { role := "user", parts := [{ text := "C" }] },
                { role := "model", parts := [{ text := "D" }] }]
          else none)
        [(100, { authorId := 5, hasRegen := true, allMessageIds := [100],
                 historyKey := some (ScopeTag.dm, 5) })]
        100
        { authorId := 5, hasRegen := true, allMessageIds := [100],
          historyKey := some (ScopeTag.dm, 5) }).2.1 (ScopeTag.dm, 5) =
      some [{ role := "user", parts := [{ text := "A" }] },
            { role := "model", parts := [{ text := "B" }] },
            { role := "user", parts := [{ text := "C" }] }] ∧
    registryGet (handle_delete [100]
        (fun k' => if k' = (ScopeTag.dm, 5) then
          some [{ role := "user", parts := [{ text := "A" }] },
                { role := "model", parts := [{ text := "B" }] },
                { role := "user", parts := [{ text := "C" }] },
                { role := "model", parts := [{ text := "D" }] }]
          else none)
        [(100, { authorId := 5, hasRegen := true, allMessageIds := [100],
                 historyKey := some (ScopeTag.dm, 5) })]
        100
        { authorId := 5, hasRegen := true, allMessageIds := [100],
          historyKey := some (ScopeTag.dm, 5) }).2.2 100 = none := by
  have h := delete_flow [100]
    (fun k' => if k' = (ScopeTag.dm, 5) then
      some [{ role := "user", parts := [{ text := "A" }] },
            { role := "model", parts := [{ text := "B" }] },
            { role := "user", parts := [{ text := "C" }] },
            { role := "model", parts := [{ text := "D" }] }]
      else none)
    [(100, { authorId := 5, hasRegen := true, allMessageIds := [100],
             historyKey := some (ScopeTag.dm, 5) })]
    100
    { authorId := 5, hasRegen := true, allMessageIds := [100],
      historyKey := some (ScopeTag.dm, 5) }
    (ScopeTag.dm, 5)
    [{ role := "user", parts := [{ text := "A" }] },
     { role := "model", parts := [{ text := "B" }] },
     { role := "user", parts := [{ text := "C" }] }]
    []
    { role := "model", parts := [{ text := "D" }] }
    rfl (by decide) rfl (by intro y hy; exact absurd hy (List.not_mem_nil y))
  exact ⟨h.1, h.2.2.1⟩

/-- C7: a delete/regenerate reaction on an existing tracked response by an
actor other than the recorded author is rejected — the platform, the
history store and the registry are all left exactly as they were, the only
effect being the reverted reaction with its transient notice — and the
retry button's interaction check denies any user but the author. -/
theorem non_author_never_mutates (ctx : ReactionCtx) (platform : List Nat)
    (hist : HStore) (reg : Registry) (info : TrackedInfo)
    (hget : registryGet reg ctx.messageId = some info)
    (hch : ctx.channelFound = true) (hmsg : ctx.messageFound = true)
    (hbot : ctx.payloadUserId ≠ ctx.botUserId)
    (hemoji : ctx.emoji = DELETE_EMOJI ∨ ctx.emoji = REGENERATE_EMOJI)
    (hauth : ctx.payloadUserId ≠ info.authorId) :
    on_raw_reaction_add ctx platform hist reg =
      (ReactionOutcome.rejectedNonAuthor, platform, hist, reg) ∧
    interaction_check info.authorId ctx.payloadUserId = false := by
  constructor
  · unfold on_raw_reaction_add
    rw [if_neg hbot, if_neg (not_not_intro hemoji), hget]
    simp only
    rw [if_neg (by rw [hch]; exact not_not_intro rfl)]
    rw [if_neg (by rw [hmsg]; exact not_not_intro rfl)]
    rw [if_pos hauth]
  · unfold interaction_check
    rw [if_pos hauth]

/-- C7 witness: user 6 reacting 🗑️ on user 5's tracked response leaves
every store untouched and is only reverted with a notice. -/
theorem non_author_never_mutates_witness :
    on_raw_reaction_add
        { botUserId := 99, payloadUserId := 6, emoji := "🗑️",
          messageId := 100, channelFound := true, messageFound := true,
          regenResponse := "", newMessageIds := [] }
        [100] emptyHStore
        [(100, { authorId := 5, hasRegen := true, allMessageIds := [100],
                 historyKey := none })] =
      (ReactionOutcome.rejectedNonAuthor, [100], emptyHStore,
        [(100, { authorId := 5, hasRegen := true, allMessageIds := [100],
                 historyKey := none })]) ∧
    interaction_check 5 6 = false := by
  exact non_author_never_mutates
    { botUserId := 99, payloadUserId := 6, emoji := "🗑️",
      messageId := 100, channelFound := true, messageFound := true,
      regenResponse := "", newMessageIds := [] }
    [100] emptyHStore
    [(100, { authorId := 5, hasRegen := true, allMessageIds := [100],
             historyKey := none })]
    { authorId := 5, hasRegen := true, allMessageIds := [100],
      historyKey := none }
    rfl rfl rfl (by decide) (Or.inl rfl) (by decide)

end Techiee
